import Mathlib

/-!
Shallow embedding of `overlay_logos.py`: a pipeline that overlays two logo
images onto every frame of a background video and writes the result.

Modelling conventions:
* Python integers are `Nat`/`Int` (they are unbounded; all quantities here
  are nonnegative except the overlay anchors, which may go negative).
* The float arithmetic inside `resize_with_aspect_ratio` is modelled by
  exact rational arithmetic; `int()` applied to a nonnegative value is the
  natural-number floor, so `int(target_width / (w / h))` is `target_width * h / w`
  in `Nat` division.
* Filesystem and media decoding are modelled by an explicit `World` record
  (which paths exist, whether the video opens, what each image decodes to,
  the decoded frame stream) plus an explicit `FS` state threaded through
  `overlay_logos`; the functions return `Except PyError _` where the Python
  code raises.
* numpy slice assignment `frame[y1:y1+h, x1:x1+w] = logo` is modelled by
  `pasteRect`, including Python's negative-index slice clipping and the
  shape check (a mismatched shape raises `ValueError`) and channel-axis
  broadcasting of a single-channel source; broadcasting of degenerate
  (size-1) spatial axes is not modelled.
* `os.path.exists` is true when anything — file or directory — exists at
  the path; `os.makedirs` raises when a regular file blocks the chain of
  directories; `os.remove` raises `IsADirectoryError` on a directory; and
  `imageio.get_writer` raises when the output directory does not exist as
  a directory (e.g. a regular file occupies its path).
-/

namespace OverlayLogos

/-- The exceptions the pipeline can raise.  Every explicit `raise` in
`overlay_logos.py` constructs a `FileNotFoundError` with a message; the
other constructors stand for exceptions raised inside numpy / cv2 /
`os` / `imageio` / Python arithmetic (their messages are not modelled):
`valueError` for the numpy broadcast failure, `cvError` for `cv2.resize`
on an empty target, `zeroDivision` for `ZeroDivisionError`,
`notADirectory` for `os.makedirs` or the writer open hitting a regular
file where a directory is needed, and `isADirectory` for `os.remove` on
a directory. -/
inductive PyError where
  | fileNotFound (msg : String)
  | valueError
  | cvError
  | zeroDivision
  | notADirectory
  | isADirectory
deriving DecidableEq

/-- `raise FileNotFoundError(f"Video file '{background}' not found")` (line 98). -/
def videoNotFoundError (p : String) : PyError :=
  .fileNotFound ("Video file '" ++ p ++ "' not found")

/-- `raise FileNotFoundError(f"Cannot open video file '{background}'")` (line 102). -/
def cannotOpenError (p : String) : PyError :=
  .fileNotFound ("Cannot open video file '" ++ p ++ "'")

/-- `raise FileNotFoundError(f"Logo image '{logo_path}' not found")` (line 28). -/
def logoNotFoundError (p : String) : PyError :=
  .fileNotFound ("Logo image '" ++ p ++ "' not found")

/-- `raise FileNotFoundError(f"Failed to load logo image from '{logo_path}'.")` (line 32). -/
def logoLoadFailedError (p : String) : PyError :=
  .fileNotFound ("Failed to load logo image from '" ++ p ++ "'.")

/-- Extract the error of an `Except` result, if any. -/
def errOf {α : Type} : Except PyError α → Option PyError
  | .error e => some e
  | .ok _ => none

instance {ε α : Type} [DecidableEq ε] [DecidableEq α] : DecidableEq (Except ε α)
  | .ok a, .ok b =>
    if h : a = b then .isTrue (by rw [h])
    else .isFalse (by intro he; cases he; exact h rfl)
  | .ok _, .error _ => .isFalse (by intro he; cases he)
  | .error _, .ok _ => .isFalse (by intro he; cases he)
  | .error e, .error f =>
    if h : e = f then .isTrue (by rw [h])
    else .isFalse (by intro he; cases he; exact h rfl)

/-- A decoded raster image: `height × width` pixels with `channels` values
per pixel (`pix y x c`; values beyond the bounds are junk).  This is the
shape-plus-contents view of a numpy array `(height, width, channels)`. -/
structure Image where
  height : Nat
  width : Nat
  channels : Nat
  pix : Nat → Nat → Nat → Nat

/-- The dimension arithmetic of the inner function `resize_with_aspect_ratio`
(lines 37-46).  In the source, `aspect_ratio = image.shape[1] / image.shape[0]`
is width / height as a float; `aspect_ratio > 1` is equivalent to `h < w`
(for positive `h`, which `load_and_resize_logo` guards), and
`int(target_width / aspect_ratio)` / `int(target_height * aspect_ratio)`
truncate a nonnegative value, i.e. take the floor, giving `Nat` division of
the exact products. -/
def resize_with_aspect (w h target_width target_height : Nat) : Nat × Nat :=
  if h < w then (target_width, target_width * h / w)
  else (target_height * w / h, target_height)

/-- The environment the pipeline runs against: the filesystem predicate
used by `os.path.exists`, whether `cv2.VideoCapture` can open a path, the
probed frame geometry, the result of `cv2.imread(path, IMREAD_UNCHANGED)`
(`none` when decoding fails), the interpolation oracle backing
`cv2.resize` (resampled pixel values are not computed pointwise), and the
decoded frame stream of a video. -/
structure World where
  pathExists : String → Bool
  videoOpens : String → Bool
  probe : String → Nat × Nat
  decodeImage : String → Option Image
  interp : Image → Nat → Nat → Nat → Nat → Nat → Nat
  readFrames : String → List Image

/-- `cv2.resize(image, (new_width, new_height))`: rejects an empty target
size, preserves the channel count, and fills pixels from the world's
interpolation oracle. -/
def cvResize (w : World) (img : Image) (nw nh : Nat) : Except PyError Image :=
  if 0 < nw ∧ 0 < nh then
    .ok { height := nh, width := nw, channels := img.channels,
          pix := fun y x c => w.interp img nw nh y x c }
  else .error .cvError

/-- `load_and_resize_logo` (lines 10-49): existence check, decode, target
box `frame_width // scale_factor × frame_height // scale_factor`, then the
aspect-preserving resize.  `scale_factor = 0` raises `ZeroDivisionError` at
the `//`, and a zero-height decoded image would raise it at
`image.shape[1] / image.shape[0]`. -/
def load_and_resize_logo (w : World) (logo_path : String)
    (frame_width frame_height scale_factor : Nat) :
    Except PyError (Image × Nat × Nat) :=
  if w.pathExists logo_path then
    match w.decodeImage logo_path with
    | none => .error (logoLoadFailedError logo_path)
    | some logo =>
      if scale_factor = 0 then .error .zeroDivision
      else if logo.height = 0 then .error .zeroDivision
      else
        let logo_width := frame_width / scale_factor
        let logo_height := frame_height / scale_factor
        let p := resize_with_aspect logo.width logo.height logo_width logo_height
        (cvResize w logo p.1 p.2).map (fun r => (r, p.1, p.2))
  else .error (logoNotFoundError logo_path)

/-- The `(new_logo_width, new_logo_height)` component of
`load_and_resize_logo`'s result. -/
def loadDims (w : World) (p : String) (fw fh sf : Nat) :
    Except PyError (Nat × Nat) :=
  (load_and_resize_logo w p fw fh sf).map (fun t => (t.2.1, t.2.2))

/-- Python slice-index resolution for an axis of length `n`: a negative
index counts from the end, and the result is clamped to `[0, n]`. -/
def sliceIndex (n : Nat) (i : Int) : Nat :=
  if i < 0 then ((n : Int) + i).toNat else min i.toNat n

/-- numpy slice assignment `frame[y1:y1+lh, x1:x1+lw] = logo` (lines 73
and 77).  The selected region's spatial shape must equal the logo's shape
and the channel axis must match or broadcast from a single channel;
otherwise numpy raises `ValueError` (cannot broadcast).  On success the
region's pixels are overwritten with the logo's — a hard overwrite, no
alpha blending. -/
def pasteRect (frame : Image) (y1 x1 : Int) (lh lw : Nat) (logo : Image) :
    Except PyError Image :=
  let ys := sliceIndex frame.height y1
  let ye := sliceIndex frame.height (y1 + (lh : Int))
  let xs := sliceIndex frame.width x1
  let xe := sliceIndex frame.width (x1 + (lw : Int))
  if ye - ys = logo.height ∧ xe - xs = logo.width ∧
      (logo.channels = frame.channels ∨ logo.channels = 1) then
    .ok { frame with pix := fun y x c =>
            if ys ≤ y ∧ y < ye ∧ xs ≤ x ∧ x < xe then
              logo.pix (y - ys) (x - xs) (if logo.channels = 1 then 0 else c)
            else frame.pix y x c }
  else .error .valueError

/-- `overlay_x1 = frame_width // 4 - logo1_width // 2` (line 71). -/
def overlay_x1 (frame_width logo1_width : Nat) : Int :=
  Int.ofNat (frame_width / 4) - Int.ofNat (logo1_width / 2)

/-- `overlay_y1 = frame_height // 2 - logo1_height // 2` (line 72). -/
def overlay_y1 (frame_height logo1_height : Nat) : Int :=
  Int.ofNat (frame_height / 2) - Int.ofNat (logo1_height / 2)

/-- `overlay_x2 = frame_width * 3 // 4 - logo2_width // 2` (line 75). -/
def overlay_x2 (frame_width logo2_width : Nat) : Int :=
  Int.ofNat (frame_width * 3 / 4) - Int.ofNat (logo2_width / 2)

/-- `overlay_y2 = frame_height // 2 - logo2_height // 2` (line 76). -/
def overlay_y2 (frame_height logo2_height : Nat) : Int :=
  Int.ofNat (frame_height / 2) - Int.ofNat (logo2_height / 2)

/-- `cv2.cvtColor(frame, cv2.COLOR_BGR2RGB)` (line 79): swap channels 0
and 2 of a 3-channel image. -/
def cvtColorBGR2RGB (img : Image) : Image :=
  { img with pix := fun y x c => img.pix y x (2 - c) }

/-- The body of the `while True` loop of `process_video` (lines 71-79):
paste `logo1` at the left anchor, then `logo2` at the right anchor, on the
current frame.  The slice extents come from the passed-in logo dimensions,
exactly as in the source. -/
def compositeFrame (frame logo1 : Image) (logo1_width logo1_height : Nat)
    (logo2 : Image) (logo2_width logo2_height : Nat)
    (frame_width frame_height : Nat) : Except PyError Image := do
  let f1 ← pasteRect frame (overlay_y1 frame_height logo1_height)
      (overlay_x1 frame_width logo1_width) logo1_height logo1_width logo1
  pasteRect f1 (overlay_y2 frame_height logo2_height)
      (overlay_x2 frame_width logo2_width) logo2_height logo2_width logo2

/-- The frame loop of `process_video` over an explicit frame list:
composite each decoded frame, convert it to RGB, and collect the frames
handed to `writer.append_data`, in order.  Reading past the last frame
(`ret` false) ends the loop normally. -/
def processFrames (logo1 : Image) (logo1_width logo1_height : Nat)
    (logo2 : Image) (logo2_width logo2_height : Nat)
    (frame_width frame_height : Nat) : List Image → Except PyError (List Image)
  | [] => .ok []
  | f :: rest => do
    let g ← compositeFrame f logo1 logo1_width logo1_height logo2
        logo2_width logo2_height frame_width frame_height
    let out ← processFrames logo1 logo1_width logo1_height logo2
        logo2_width logo2_height frame_width frame_height rest
    .ok (cvtColorBGR2RGB g :: out)

/-- `process_video` (lines 52-81): stream the frames of `video_path` and
return the list of frames written. -/
def process_video (w : World) (video_path : String) (logo1 : Image)
    (logo1_width logo1_height : Nat) (logo2 : Image)
    (logo2_width logo2_height : Nat) (frame_width frame_height : Nat) :
    Except PyError (List Image) :=
  processFrames logo1 logo1_width logo1_height logo2 logo2_width logo2_height
    frame_width frame_height (w.readFrames video_path)

/-- Filesystem state: the set of existing regular files and the set of
existing directories, as lists of (unique) paths. -/
structure FS where
  files : List String
  dirs : List String
deriving DecidableEq

/-- `os.path.dirname` for normalized POSIX paths: everything before the
last `/`, empty when there is no `/`.  (The root-path corner case
`dirname "/x" = "/"` is not modelled; no theorem below depends on it.) -/
def dirname (p : String) : String :=
  match p.data.reverse.dropWhile (fun c => c != '/') with
  | [] => ""
  | _ :: tail => String.mk tail.reverse

/-- The prefixes of a path that end just before each `/`: the chain of
parent directories `os.makedirs` walks through.  `pre` holds the already
consumed characters, reversed. -/
def ancestorsAux (pre : List Char) : List Char → List String
  | [] => []
  | c :: rest =>
    if c = '/' then String.mk pre.reverse :: ancestorsAux (c :: pre) rest
    else ancestorsAux (c :: pre) rest

/-- The directories `os.makedirs d` creates when none of them exists:
every proper ancestor of `d` followed by `d` itself. -/
def ancestorDirs (d : String) : List String :=
  ancestorsAux [] d.data ++ [d]

/-- `os.makedirs(d)`: creates `d` and its missing ancestors.  When a
regular file occupies `d` or one of its ancestors, the walk reaches a
non-directory parent and raises (`NotADirectoryError` / `FileExistsError`)
— and on a POSIX-consistent filesystem nothing exists below a regular
file, so nothing has been created when it raises.  Otherwise every
missing component is created. -/
def makedirs (fs : FS) (d : String) : Except PyError FS :=
  if (ancestorDirs d).any (fun a => decide (a ∈ fs.files)) then
    .error .notADirectory
  else .ok { fs with dirs := ancestorDirs d ++ fs.dirs }

/-- Lines 112-117 of `overlay_logos`: create the output directory if the
path has one and it does not exist yet (`if output_dir and not
os.path.exists(output_dir): os.makedirs(output_dir)`), then delete a
pre-existing file at the output path (`if os.path.exists(output_path):
os.remove(output_path)`).  `os.path.exists` is true when *anything* —
file or directory — exists at the path, so a regular file at the
directory path skips creation, and a directory at the output path makes
`os.remove` raise `IsADirectoryError`.  Returns the filesystem after
whatever completed, paired with the raised error if any.  Paths are
unique in `FS.files`, so removal filters the path out. -/
def prepareOutput (fs : FS) (output_path : String) : FS × Option PyError :=
  match
    (if dirname output_path ≠ "" ∧
        ¬ (dirname output_path ∈ fs.files ∨ dirname output_path ∈ fs.dirs) then
      makedirs fs (dirname output_path)
    else .ok fs) with
  | .error e => (fs, some e)
  | .ok fs1 =>
    if output_path ∈ fs1.files ∨ output_path ∈ fs1.dirs then
      if output_path ∈ fs1.dirs then (fs1, some .isADirectory)
      else ({ fs1 with files := fs1.files.filter (fun q => q != output_path) },
            none)
    else (fs1, none)

/-- `imageio.get_writer(output_path, fps=fps)` (line 119): opening the
output file for writing requires the output directory to exist as a
directory (the working directory when the path names none); when a
regular file occupies the directory path there is no such directory and
the open raises.  On success the output file is created. -/
def get_writer (fs : FS) (output_path : String) : Except PyError FS :=
  if dirname output_path = "" ∨ dirname output_path ∈ fs.dirs then
    .ok { fs with files := output_path :: fs.files }
  else .error .notADirectory

/-- What a finished run reports: how many frames were appended and whether
the writer was finalized (`writer.close()`, line 124). -/
structure RunInfo where
  framesWritten : Nat
  finalized : Bool
deriving DecidableEq

/-- `overlay_logos` (lines 84-126): existence check and open check on the
background, probe the geometry, load and resize both logos, prepare the
output location, open the writer (which creates the output file), stream
the frames, close the writer.  The cleanup step and the writer open can
themselves raise; the returned `FS` is the filesystem state when the
function returns or raises. -/
def overlay_logos (w : World) (fs : FS)
    (background left_logo right_logo output_path : String)
    (scale_factor : Nat) : FS × Except PyError RunInfo :=
  if w.pathExists background then
    if w.videoOpens background then
      match load_and_resize_logo w left_logo (w.probe background).1
          (w.probe background).2 scale_factor with
      | .error e => (fs, .error e)
      | .ok (logo1, logo1_width, logo1_height) =>
        match load_and_resize_logo w right_logo (w.probe background).1
            (w.probe background).2 scale_factor with
        | .error e => (fs, .error e)
        | .ok (logo2, logo2_width, logo2_height) =>
          match prepareOutput fs output_path with
          | (fs1, some e) => (fs1, .error e)
          | (fs1, none) =>
            match get_writer fs1 output_path with
            | .error e => (fs1, .error e)
            | .ok fs2 =>
              match process_video w background logo1 logo1_width logo1_height
                  logo2 logo2_width logo2_height (w.probe background).1
                  (w.probe background).2 with
              | .error e => (fs2, .error e)
              | .ok written =>
                (fs2, .ok { framesWritten := written.length, finalized := true })
    else (fs, .error (cannotOpenError background))
  else (fs, .error (videoNotFoundError background))

/-- The resize-dimension rule as the spec words it (§4.2), literally:
`r = image_width / image_height`; if `r > 1` then `new_width` is the
target box width and `new_height = round(new_width / r)`, otherwise
`new_height` is the target box height and `new_width = round(new_height * r)`
— rounding to the nearest integer.  Written only to be compared with
`resize_with_aspect`, which embeds the code. -/
def resize_spec_round (w h target_width target_height : Nat) : Nat × Nat :=
  if (1 : ℚ) < (w : ℚ) / (h : ℚ) then
    (target_width, (round ((target_width : ℚ) / ((w : ℚ) / (h : ℚ)))).toNat)
  else
    ((round ((target_height : ℚ) * ((w : ℚ) / (h : ℚ)))).toNat, target_height)

/-- The same rule with the rounding replaced by truncation toward zero
(Python `int()`, the floor on nonnegative values): the statement the code
actually implements. -/
def resize_spec_floor (w h target_width target_height : Nat) : Nat × Nat :=
  if (1 : ℚ) < (w : ℚ) / (h : ℚ) then
    (target_width, ⌊(target_width : ℚ) / ((w : ℚ) / (h : ℚ))⌋₊)
  else
    (⌊(target_height : ℚ) * ((w : ℚ) / (h : ℚ))⌋₊, target_height)

lemma intFloor_natCast_div (n m : Nat) :
    ⌊(n : ℚ) / (m : ℚ)⌋ = Int.ofNat (n / m) := by
  rw [← Int.natCast_floor_eq_floor (by positivity), Nat.floor_div_eq_div]
  rfl

lemma append_sandwich_ne (s1 t1 s2 t2 p : String)
    (h : s1.length + t1.length ≠ s2.length + t2.length) :
    s1 ++ p ++ t1 ≠ s2 ++ p ++ t2 := by
  intro he
  apply h
  have hl := congrArg String.length he
  rw [String.length_append, String.length_append, String.length_append,
    String.length_append] at hl
  omega

/-- A sample environment: every path exists, every video opens and probes
as 1920×1080, every image decodes to a 3-wide, 2-tall, 3-channel logo, and
the frame stream is empty. -/
def wideLogoWorld : World :=
  { pathExists := fun _ => true, videoOpens := fun _ => true,
    probe := fun _ => (1920, 1080),
    decodeImage := fun _ => some ⟨2, 3, 3, fun _ _ _ => 0⟩,
    interp := fun _ _ _ _ _ _ => 0, readFrames := fun _ => [] }

/-- A sample environment in which no path exists and nothing decodes. -/
def absentWorld : World :=
  { pathExists := fun _ => false, videoOpens := fun _ => false,
    probe := fun _ => (0, 0), decodeImage := fun _ => none,
    interp := fun _ _ _ _ _ _ => 0, readFrames := fun _ => [] }

/-- A sample 8×8 frame with 3 channels. -/
def frame8 : Image := ⟨8, 8, 3, fun _ _ _ => 5⟩

/-- A sample 2×2 logo decoded with a transparency channel (4 channels). -/
def logoAlpha : Image := ⟨2, 2, 4, fun _ _ _ => 7⟩

/-- A sample opaque 2×2 logo (3 channels). -/
def logoOpaque : Image := ⟨2, 2, 3, fun _ _ _ => 9⟩

lemma resize_with_aspect_bounds (w h tw th : Nat) (hh : 0 < h) :
    ((resize_with_aspect w h tw th).1 = tw ∨ (resize_with_aspect w h tw th).2 = th) ∧
    (resize_with_aspect w h tw th).1 ≤ max tw th ∧
    (resize_with_aspect w h tw th).2 ≤ max tw th := by
  rw [resize_with_aspect]
  by_cases hlt : h < w
  · rw [if_pos hlt]
    have hw : 0 < w := hh.trans hlt
    have hb : tw * h / w ≤ tw := by
      calc tw * h / w ≤ tw * w / w :=
            Nat.div_le_div_right (Nat.mul_le_mul_left _ hlt.le)
        _ = tw := Nat.mul_div_left tw hw
    exact ⟨Or.inl rfl, le_max_left _ _, hb.trans (le_max_left _ _)⟩
  · rw [if_neg hlt]
    have hb : th * w / h ≤ th := by
      calc th * w / h ≤ th * h / h :=
            Nat.div_le_div_right (Nat.mul_le_mul_left _ (Nat.le_of_not_lt hlt))
        _ = th := Nat.mul_div_left th hh
    exact ⟨Or.inr rfl, hb.trans (le_max_right _ _), le_max_right _ _⟩

/-- C1: corrected.  Whenever `load_and_resize_logo` returns, the resized
dimensions saturate the target box on at least one axis, and both
dimensions are bounded by the *larger* of the two box sides
`max (frame_width // scale_factor) (frame_height // scale_factor)`.  The
claim's per-axis bound (each dimension below its own box side) is refuted
by `load_resize_box_cex`. -/
theorem load_resize_saturates (w : World) (p : String) (fw fh sf : Nat)
    (d : Nat × Nat) (h : loadDims w p fw fh sf = .ok d) :
    (d.1 = fw / sf ∨ d.2 = fh / sf) ∧
    d.1 ≤ max (fw / sf) (fh / sf) ∧ d.2 ≤ max (fw / sf) (fh / sf) := by
  rw [loadDims, load_and_resize_logo] at h
  by_cases hex : w.pathExists p = true
  · rw [if_pos hex] at h
    cases hdec : w.decodeImage p with
    | none => rw [hdec] at h; cases h
    | some logo =>
      rw [hdec] at h
      dsimp only at h
      by_cases hsf : sf = 0
      · rw [if_pos hsf] at h; cases h
      · rw [if_neg hsf] at h
        by_cases hlh : logo.height = 0
        · rw [if_pos hlh] at h; cases h
        · rw [if_neg hlh] at h
          rw [cvResize] at h
          by_cases hok :
              0 < (resize_with_aspect logo.width logo.height (fw / sf) (fh / sf)).1 ∧
              0 < (resize_with_aspect logo.width logo.height (fw / sf) (fh / sf)).2
          · rw [if_pos hok] at h
            simp only [Except.map] at h
            cases h
            exact resize_with_aspect_bounds logo.width logo.height (fw / sf) (fh / sf)
              (Nat.pos_of_ne_zero hlh)
          · rw [if_neg hok] at h; cases h
  · rw [if_neg hex] at h; cases h

/-- C1 witness: the theorem applied to a concrete run (3×2 logo,
1920×1080 frame, scale factor 4, giving resized dimensions 480×320). -/
theorem load_resize_saturates_witness :
    ((480 : Nat) = 1920 / 4 ∨ (320 : Nat) = 1080 / 4) ∧
    (480 : Nat) ≤ max (1920 / 4) (1080 / 4) ∧
    (320 : Nat) ≤ max (1920 / 4) (1080 / 4) :=
  load_resize_saturates wideLogoWorld "logo.png" 1920 1080 4 (480, 320) (by decide)

/-- C1 counterexample: with a 1920×1080 frame, scale factor 4 and a 3×2
logo, `load_and_resize_logo` returns 480×320, and 320 exceeds the box
height `1080 // 4 = 270` — the resized height is *not* bounded by
`frame_height // scale_factor`. -/
theorem load_resize_box_cex :
    loadDims wideLogoWorld "logo.png" 1920 1080 4 = .ok (480, 320) ∧
    ¬ (320 ≤ 1080 / 4) := ⟨by decide, by decide⟩

/-- C3: corrected.  The resize of `load_and_resize_logo` computes the
non-saturated axis with Python `int()` — truncation toward zero, i.e. the
floor on these nonnegative values — not rounding to the nearest integer:
with `r = w / h`, if `r > 1` then the result is
`(target_width, ⌊target_width / r⌋)`, otherwise
`(⌊target_height * r⌋, target_height)`. -/
theorem resize_truncates (w h tw th : Nat) (hw : 0 < w) (hh : 0 < h) :
    resize_with_aspect w h tw th = resize_spec_floor w h tw th := by
  have hcond : ((1 : ℚ) < (w : ℚ) / (h : ℚ)) ↔ h < w := by
    rw [one_lt_div (by exact_mod_cast hh)]
    exact_mod_cast Iff.rfl
  rw [resize_with_aspect, resize_spec_floor]
  by_cases hlt : h < w
  · rw [if_pos hlt, if_pos (hcond.mpr hlt)]
    have : (tw : ℚ) / ((w : ℚ) / (h : ℚ)) = ((tw * h : ℕ) : ℚ) / ((w : ℕ) : ℚ) := by
      push_cast
      rw [div_div_eq_mul_div]
    rw [this, Nat.floor_div_eq_div]
  · rw [if_neg hlt, if_neg (fun hc => hlt (hcond.mp hc))]
    have : (th : ℚ) * ((w : ℚ) / (h : ℚ)) = ((th * w : ℕ) : ℚ) / ((h : ℕ) : ℚ) := by
      push_cast
      ring
    rw [this, Nat.floor_div_eq_div]

/-- C3 witness: the theorem applied at the concrete 3×2 logo with target
box 10×99. -/
theorem resize_truncates_witness :
    resize_with_aspect 3 2 10 99 = resize_spec_floor 3 2 10 99 :=
  resize_truncates 3 2 10 99 (by decide) (by decide)

/-- C3 counterexample: box `40 // 4 = 10` wide, `396 // 4 = 99` tall, logo
3×2 (r = 1.5 > 1).  The code returns height `int(10 / 1.5) = 6`, while
the claim's formula `round(10 / 1.5) = round(6.67) = 7` — the code
truncates, it does not round to nearest. -/
theorem resize_rounding_cex :
    loadDims wideLogoWorld "logo.png" 40 396 4 = .ok (10, 6) ∧
    resize_spec_round 3 2 10 99 = (10, 7) := by
  constructor
  · decide
  · rw [resize_spec_round, if_pos]
    · norm_num [round_eq]
      rfl
    · norm_num


lemma intFloor_div_two (n : Nat) : ⌊(n : ℚ) / 2⌋ = Int.ofNat (n / 2) := by
  rw [show (2 : ℚ) = ((2 : ℕ) : ℚ) by norm_num]
  exact intFloor_natCast_div n 2

lemma intFloor_div_four (n : Nat) : ⌊(n : ℚ) / 4⌋ = Int.ofNat (n / 4) := by
  rw [show (4 : ℚ) = ((4 : ℕ) : ℚ) by norm_num]
  exact intFloor_natCast_div n 4

lemma intFloor_mul3_div_four (n : Nat) :
    ⌊(n : ℚ) * 3 / 4⌋ = Int.ofNat (n * 3 / 4) := by
  rw [show ((n : ℚ) * 3) = ((n * 3 : ℕ) : ℚ) by push_cast; ring]
  exact intFloor_div_four (n * 3)

/-- C5: confirmed.  The per-frame compositing pastes the left logo at
anchor `(frame_width/4 − logo1_width/2, frame_height/2 − logo1_height/2)`
and the right logo at
`(frame_width*3/4 − logo2_width/2, frame_height/2 − logo2_height/2)`,
where each quotient separately is the floor of the exact rational
quotient, exactly as the claim states. -/
theorem compositor_anchors (frame logo1 : Image) (l1w l1h : Nat)
    (logo2 : Image) (l2w l2h fw fh : Nat) :
    compositeFrame frame logo1 l1w l1h logo2 l2w l2h fw fh =
      Except.bind
        (pasteRect frame (⌊(fh : ℚ) / 2⌋ - ⌊(l1h : ℚ) / 2⌋)
          (⌊(fw : ℚ) / 4⌋ - ⌊(l1w : ℚ) / 2⌋) l1h l1w logo1)
        (fun f1 =>
          pasteRect f1 (⌊(fh : ℚ) / 2⌋ - ⌊(l2h : ℚ) / 2⌋)
            (⌊(fw : ℚ) * 3 / 4⌋ - ⌊(l2w : ℚ) / 2⌋) l2h l2w logo2) := by
  simp only [intFloor_div_two, intFloor_div_four, intFloor_mul3_div_four]
  rfl

lemma sliceIndex_ofNat (n k : Nat) (hk : k ≤ n) :
    sliceIndex n (Int.ofNat k) = k := by
  rw [sliceIndex, if_neg (by simp [Int.ofNat_eq_natCast, Int.not_lt])]
  simp [Int.toNat_ofNat, min_eq_left hk]

/-- C2: corrected.  When the logo's channel count matches the frame's
(an opaque 3-channel logo on a 3-channel frame), the slice assignment is a
hard overwrite: inside the pasted rectangle every channel value is the
logo's pixel value, with no blending against the frame.  But a logo that
decodes with a transparency channel (4 channels) does not broadcast into
the frame's 3-channel rectangle: the assignment raises `ValueError`
(refuting the claim that compositing still succeeds and merely discards
the transparency — see `alpha_paste_cex`). -/
theorem paste_hard_overwrite (frame logo : Image) (a b : Nat)
    (hH : a + logo.height ≤ frame.height) (hW : b + logo.width ≤ frame.width) :
    (logo.channels = frame.channels →
      ∀ y x c, c < frame.channels → a ≤ y → y < a + logo.height →
        b ≤ x → x < b + logo.width →
        (pasteRect frame (Int.ofNat a) (Int.ofNat b)
            logo.height logo.width logo).map (fun g => g.pix y x c) =
          .ok (logo.pix (y - a) (x - b) c)) ∧
    (logo.channels = 4 → frame.channels = 3 →
      pasteRect frame (Int.ofNat a) (Int.ofNat b)
          logo.height logo.width logo = .error .valueError) := by
  have hys : sliceIndex frame.height (Int.ofNat a) = a :=
    sliceIndex_ofNat _ _ (by omega)
  have hye : sliceIndex frame.height (Int.ofNat a + (logo.height : Int)) =
      a + logo.height := by
    rw [show Int.ofNat a + (logo.height : Int) = Int.ofNat (a + logo.height) by
      simp [Int.ofNat_add]]
    exact sliceIndex_ofNat _ _ hH
  have hxs : sliceIndex frame.width (Int.ofNat b) = b :=
    sliceIndex_ofNat _ _ (by omega)
  have hxe : sliceIndex frame.width (Int.ofNat b + (logo.width : Int)) =
      b + logo.width := by
    rw [show Int.ofNat b + (logo.width : Int) = Int.ofNat (b + logo.width) by
      simp [Int.ofNat_add]]
    exact sliceIndex_ofNat _ _ hW
  constructor
  · intro hch y x c hc hy1 hy2 hx1 hx2
    rw [pasteRect]
    rw [hys, hye, hxs, hxe, if_pos ⟨by omega, by omega, Or.inl hch⟩]
    simp only [Except.map]
    rw [if_pos ⟨hy1, hy2, hx1, hx2⟩]
    by_cases h1 : logo.channels = 1
    · have hc0 : c = 0 := by rw [hch] at h1; omega
      rw [if_pos h1, hc0]
    · rw [if_neg h1]
  · intro h4 h3
    rw [pasteRect]
    rw [if_neg]
    rintro ⟨-, -, hor⟩
    rcases hor with hl | hl
    · rw [h4, h3] at hl; omega
    · rw [h4] at hl; omega

/-- C2 witness: pasting the opaque 2×2 logo at (3, 3) on the 8×8 frame
puts the logo's pixel value at (3, 4). -/
theorem paste_hard_overwrite_witness :
    (pasteRect frame8 (Int.ofNat 3) (Int.ofNat 3)
        logoOpaque.height logoOpaque.width logoOpaque).map
      (fun g => g.pix 3 4 0) = .ok (logoOpaque.pix (3 - 3) (4 - 3) 0) :=
  (paste_hard_overwrite frame8 logoOpaque 3 3 (by decide) (by decide)).1 rfl
    3 4 0 (by decide) (by decide) (by decide) (by decide) (by decide)

/-- C2 counterexample: compositing a frame with a logo that carries a
transparency channel does not succeed — the rectangle overwrite raises
`ValueError` instead of discarding the transparency. -/
theorem alpha_paste_cex :
    errOf (compositeFrame frame8 logoAlpha 2 2 logoAlpha 2 2 8 8) =
      some .valueError := rfl

lemma pasteRect_ok_dims (f : Image) (y1 x1 : Int) (lh lw : Nat) (l g : Image)
    (h : pasteRect f y1 x1 lh lw l = .ok g) :
    g.height = f.height ∧ g.width = f.width := by
  rw [pasteRect] at h
  split at h
  · cases h; exact ⟨rfl, rfl⟩
  · cases h

/-- C8: confirmed.  Compositing never changes the canvas size: whatever
the two rectangle overwrites do, the resulting frame has exactly the
height and width of the decoded frame. -/
theorem composite_preserves_dims (frame logo1 : Image) (l1w l1h : Nat)
    (logo2 : Image) (l2w l2h fw fh : Nat) :
    (compositeFrame frame logo1 l1w l1h logo2 l2w l2h fw fh).map
        (fun g => (g.height, g.width)) =
      (compositeFrame frame logo1 l1w l1h logo2 l2w l2h fw fh).map
        (fun _ => (frame.height, frame.width)) := by
  rw [compositeFrame]
  cases h1 : pasteRect frame (overlay_y1 fh l1h) (overlay_x1 fw l1w)
      l1h l1w logo1 with
  | error e => rfl
  | ok f1 =>
    obtain ⟨hh1, hw1⟩ := pasteRect_ok_dims _ _ _ _ _ _ _ h1
    show (pasteRect f1 (overlay_y2 fh l2h) (overlay_x2 fw l2w)
        l2h l2w logo2).map (fun g => (g.height, g.width)) =
      (pasteRect f1 (overlay_y2 fh l2h) (overlay_x2 fw l2w)
        l2h l2w logo2).map (fun _ => (frame.height, frame.width))
    cases h2 : pasteRect f1 (overlay_y2 fh l2h) (overlay_x2 fw l2w)
        l2h l2w logo2 with
    | error e => rfl
    | ok g =>
      obtain ⟨hh2, hw2⟩ := pasteRect_ok_dims _ _ _ _ _ _ _ h2
      simp only [Except.map]
      rw [hh2, hw2, hh1, hw1]


/-- C4: confirmed.  The four failure causes raise pairwise-distinguishable
errors: a missing background raises the "not found" `FileNotFoundError`,
an existing but unopenable background the distinct "Cannot open" one, a
missing logo the "not found" one, and an existing but undecodable logo the
distinct "Failed to load" one. -/
theorem error_kinds_by_cause (w : World) (fs : FS) (b l r o : String) (sf : Nat) :
    (w.pathExists b = false →
      (overlay_logos w fs b l r o sf).2 = .error (videoNotFoundError b)) ∧
    (w.pathExists b = true → w.videoOpens b = false →
      (overlay_logos w fs b l r o sf).2 = .error (cannotOpenError b)) ∧
    (w.pathExists b = true → w.videoOpens b = true → w.pathExists l = false →
      (overlay_logos w fs b l r o sf).2 = .error (logoNotFoundError l)) ∧
    (w.pathExists b = true → w.videoOpens b = true → w.pathExists l = true →
      w.decodeImage l = none →
      (overlay_logos w fs b l r o sf).2 = .error (logoLoadFailedError l)) ∧
    videoNotFoundError b ≠ cannotOpenError b ∧
    logoNotFoundError l ≠ logoLoadFailedError l := by
  refine ⟨?_, ?_, ?_, ?_, ?_, ?_⟩
  · intro hb
    rw [overlay_logos, if_neg (by rw [hb]; simp)]
  · intro hb ho
    rw [overlay_logos, if_pos hb, if_neg (by rw [ho]; simp)]
  · intro hb ho hl
    rw [overlay_logos, if_pos hb, if_pos ho, load_and_resize_logo,
      if_neg (by rw [hl]; simp)]
  · intro hb ho hl hd
    rw [overlay_logos, if_pos hb, if_pos ho, load_and_resize_logo,
      if_pos hl, hd]
  · rw [videoNotFoundError, cannotOpenError]
    intro he
    injection he with hm
    exact append_sandwich_ne _ _ _ _ b (by decide) hm
  · rw [logoNotFoundError, logoLoadFailedError]
    intro he
    injection he with hm
    exact append_sandwich_ne _ _ _ _ l (by decide) hm

/-- C4 witness: a missing background path raises the "not found" error. -/
theorem error_kinds_by_cause_witness :
    (overlay_logos absentWorld ⟨[], []⟩ "bg.mp4" "l.png" "r.png" "out.mp4" 4).2 =
      .error (videoNotFoundError "bg.mp4") :=
  (error_kinds_by_cause absentWorld ⟨[], []⟩ "bg.mp4" "l.png" "r.png" "out.mp4" 4).1 rfl

/-- C6: confirmed.  A missing background path, or a missing logo path
reached by the checks, raises a not-found error and leaves the filesystem
exactly as it was: no output file is created at the output path and no
partial video is written. -/
theorem missing_paths_no_output (w : World) (fs : FS) (b l r o : String) (sf : Nat) :
    (w.pathExists b = false →
      overlay_logos w fs b l r o sf = (fs, .error (videoNotFoundError b))) ∧
    (w.pathExists b = true → w.videoOpens b = true → w.pathExists l = false →
      overlay_logos w fs b l r o sf = (fs, .error (logoNotFoundError l))) ∧
    (w.pathExists b = true → w.videoOpens b = true →
      errOf (load_and_resize_logo w l (w.probe b).1 (w.probe b).2 sf) = none →
      w.pathExists r = false →
      overlay_logos w fs b l r o sf = (fs, .error (logoNotFoundError r))) := by
  refine ⟨?_, ?_, ?_⟩
  · intro hb
    rw [overlay_logos, if_neg (by rw [hb]; simp)]
  · intro hb ho hl
    rw [overlay_logos, if_pos hb, if_pos ho, load_and_resize_logo,
      if_neg (by rw [hl]; simp)]
  · intro hb ho hok hr
    have hR : load_and_resize_logo w r (w.probe b).1 (w.probe b).2 sf =
        .error (logoNotFoundError r) := by
      rw [load_and_resize_logo, if_neg (by rw [hr]; simp)]
    rw [overlay_logos, if_pos hb, if_pos ho]
    cases hL : load_and_resize_logo w l (w.probe b).1 (w.probe b).2 sf with
    | error e => rw [hL] at hok; simp [errOf] at hok
    | ok t =>
      obtain ⟨logo1, d1w, d1h⟩ := t
      rw [hR]

/-- C6 witness: with no paths existing, the run fails with the background
not-found error and returns the filesystem unchanged. -/
theorem missing_paths_no_output_witness :
    overlay_logos absentWorld ⟨["old.mp4"], []⟩ "bg.mp4" "l.png" "r.png" "old.mp4" 4 =
      (⟨["old.mp4"], []⟩, .error (videoNotFoundError "bg.mp4")) :=
  (missing_paths_no_output absentWorld ⟨["old.mp4"], []⟩ "bg.mp4" "l.png" "r.png"
    "old.mp4" 4).1 rfl

lemma ancestorsAux_length_lt (l : List Char) :
    ∀ pre : List Char, ∀ a ∈ ancestorsAux pre l,
      a.length < pre.length + l.length := by
  induction l with
  | nil =>
    intro pre a ha
    simp [ancestorsAux] at ha
  | cons c rest ih =>
    intro pre a ha
    rw [ancestorsAux] at ha
    by_cases hc : c = '/'
    · rw [if_pos hc] at ha
      rcases List.mem_cons.mp ha with h | h
      · subst h
        have hlen : (String.mk pre.reverse).length = pre.length := by
          show pre.reverse.length = pre.length
          exact List.length_reverse _
        rw [hlen]
        simp only [List.length_cons]
        omega
      · have := ih (c :: pre) a h
        simp only [List.length_cons] at this ⊢
        omega
    · rw [if_neg hc] at ha
      have := ih (c :: pre) a ha
      simp only [List.length_cons] at this ⊢
      omega

lemma ancestorDirs_length_le (d : String) :
    ∀ a ∈ ancestorDirs d, a.length ≤ d.length := by
  intro a ha
  rw [ancestorDirs] at ha
  rcases List.mem_append.mp ha with h | h
  · have h1 := ancestorsAux_length_lt d.data [] a h
    have h2 : d.length = d.data.length := rfl
    simp only [List.length_nil] at h1
    omega
  · rw [List.mem_singleton] at h
    subst h
    exact le_refl _

lemma dirname_mem_ancestorDirs (d : String) : d ∈ ancestorDirs d := by
  rw [ancestorDirs]
  exact List.mem_append_right _ (List.mem_singleton.mpr rfl)

lemma dirname_length_lt (o : String) (h : dirname o ≠ "") :
    (dirname o).length < o.length := by
  rw [dirname]
  cases hdrop : o.data.reverse.dropWhile (fun c => c != '/') with
  | nil =>
    exfalso
    apply h
    rw [dirname, hdrop]
  | cons c tail =>
    show (String.mk tail.reverse).length < o.length
    have h1 : (c :: tail).length ≤ o.data.reverse.length := by
      rw [← hdrop]
      exact (List.dropWhile_suffix _).sublist.length_le
    have h2 : o.data.reverse.length = o.length := by
      rw [List.length_reverse]
      rfl
    have h3 : (String.mk tail.reverse).length = tail.length := by
      show tail.reverse.length = tail.length
      exact List.length_reverse _
    simp only [List.length_cons] at h1
    omega

lemma not_mem_ancestorDirs_dirname (o : String) (h : dirname o ≠ "") :
    ¬ o ∈ ancestorDirs (dirname o) := by
  intro hmem
  have h1 := ancestorDirs_length_le (dirname o) o hmem
  have h2 := dirname_length_lt o h
  omega

lemma prepareOutput_clean (fs : FS) (o : String)
    (hdf : ∀ a ∈ ancestorDirs (dirname o), ¬ a ∈ fs.files)
    (hod : ¬ o ∈ fs.dirs) :
    (prepareOutput fs o).2 = none ∧
    (prepareOutput fs o).1.files =
      (if o ∈ fs.files then fs.files.filter (fun q => q != o) else fs.files) ∧
    (prepareOutput fs o).1.dirs =
      (if dirname o ≠ "" ∧ ¬ dirname o ∈ fs.dirs then
        ancestorDirs (dirname o) ++ fs.dirs
      else fs.dirs) := by
  have hdnf : ¬ dirname o ∈ fs.files := hdf (dirname o) (dirname_mem_ancestorDirs _)
  rw [prepareOutput]
  by_cases h1 : dirname o ≠ "" ∧ ¬ (dirname o ∈ fs.files ∨ dirname o ∈ fs.dirs)
  · have hmk : ¬ ((ancestorDirs (dirname o)).any
        (fun a => decide (a ∈ fs.files)) = true) := by
      rw [List.any_eq_true]
      rintro ⟨a, ha, hpa⟩
      exact hdf a ha (by simpa using hpa)
    rw [if_pos h1, makedirs, if_neg hmk]
    dsimp only
    have h1' : dirname o ≠ "" ∧ ¬ dirname o ∈ fs.dirs :=
      ⟨h1.1, fun hm => h1.2 (Or.inr hm)⟩
    have hond : ¬ o ∈ ancestorDirs (dirname o) ++ fs.dirs := by
      intro hm
      rcases List.mem_append.mp hm with hm | hm
      · exact not_mem_ancestorDirs_dirname o h1.1 hm
      · exact hod hm
    by_cases h2 : o ∈ fs.files
    · rw [if_pos (Or.inl h2 : o ∈ fs.files ∨ o ∈ ancestorDirs (dirname o) ++ fs.dirs),
        if_neg hond, if_pos h2, if_pos h1']
      exact ⟨rfl, rfl, rfl⟩
    · have hno : ¬ (o ∈ fs.files ∨ o ∈ ancestorDirs (dirname o) ++ fs.dirs) := by
        rintro (hm | hm)
        · exact h2 hm
        · exact hond hm
      rw [if_neg hno, if_neg h2, if_pos h1']
      exact ⟨rfl, rfl, rfl⟩
  · rw [if_neg h1]
    dsimp only
    have h1' : ¬ (dirname o ≠ "" ∧ ¬ dirname o ∈ fs.dirs) := by
      intro hp
      exact h1 ⟨hp.1, fun hor => hor.elim hdnf hp.2⟩
    by_cases h2 : o ∈ fs.files
    · rw [if_pos (Or.inl h2 : o ∈ fs.files ∨ o ∈ fs.dirs), if_neg hod, if_pos h2,
        if_neg h1']
      exact ⟨rfl, rfl, rfl⟩
    · have hno : ¬ (o ∈ fs.files ∨ o ∈ fs.dirs) := by
        rintro (hm | hm)
        · exact h2 hm
        · exact hod hm
      rw [if_neg hno, if_neg h2, if_neg h1']
      exact ⟨rfl, rfl, rfl⟩

/-- C7: confirmed.  Under the filesystem preconditions any run needs in
order to open the writer at all — no regular file occupies the output
directory path or one of its ancestors, and no directory occupies the
output path — a source video with zero frames is not an error: the run
returns successfully with zero frames written, the writer is finalized
(closed), and the output file exists. -/
theorem zero_frames_completes (w : World) (fs : FS) (b l r o : String) (sf : Nat)
    (hb : w.pathExists b = true) (ho : w.videoOpens b = true)
    (hl : errOf (load_and_resize_logo w l (w.probe b).1 (w.probe b).2 sf) = none)
    (hr : errOf (load_and_resize_logo w r (w.probe b).1 (w.probe b).2 sf) = none)
    (hz : w.readFrames b = [])
    (hdf : ∀ a ∈ ancestorDirs (dirname o), ¬ a ∈ fs.files)
    (hod : ¬ o ∈ fs.dirs) :
    (overlay_logos w fs b l r o sf).2 =
      .ok { framesWritten := 0, finalized := true } ∧
    o ∈ (overlay_logos w fs b l r o sf).1.files := by
  obtain ⟨h2none, hfiles, hdirs⟩ := prepareOutput_clean fs o hdf hod
  have hP : prepareOutput fs o = ((prepareOutput fs o).1, none) := by
    rw [← h2none]
  have hwr : dirname o = "" ∨ dirname o ∈ (prepareOutput fs o).1.dirs := by
    by_cases hne : dirname o = ""
    · exact Or.inl hne
    · right
      rw [hdirs]
      by_cases hm : dirname o ∈ fs.dirs
      · rw [if_neg (fun hp => hp.2 hm)]
        exact hm
      · rw [if_pos ⟨hne, hm⟩]
        exact List.mem_append_left _ (dirname_mem_ancestorDirs _)
  rw [overlay_logos, if_pos hb, if_pos ho]
  cases hL : load_and_resize_logo w l (w.probe b).1 (w.probe b).2 sf with
  | error e => rw [hL] at hl; simp [errOf] at hl
  | ok t =>
    obtain ⟨logo1, d1w, d1h⟩ := t
    cases hR : load_and_resize_logo w r (w.probe b).1 (w.probe b).2 sf with
    | error e => rw [hR] at hr; simp [errOf] at hr
    | ok t2 =>
      obtain ⟨logo2, d2w, d2h⟩ := t2
      rw [hP]
      dsimp only
      rw [get_writer, if_pos hwr]
      simp only [process_video, hz]
      exact ⟨rfl, List.mem_cons_self o _⟩

/-- C7 witness: the theorem applied to a concrete zero-frame run on an
empty filesystem. -/
theorem zero_frames_completes_witness :
    (overlay_logos wideLogoWorld ⟨[], []⟩ "bg.mp4" "l.png" "r.png" "out/v.mp4" 4).2 =
      .ok { framesWritten := 0, finalized := true } ∧
    "out/v.mp4" ∈
      (overlay_logos wideLogoWorld ⟨[], []⟩ "bg.mp4" "l.png" "r.png" "out/v.mp4" 4).1.files :=
  zero_frames_completes wideLogoWorld ⟨[], []⟩ "bg.mp4" "l.png" "r.png" "out/v.mp4" 4
    rfl rfl (by decide) (by decide) rfl (by decide) (by decide)

/-- C9 counterexample: `os.path.exists` tests for any entry, not
specifically a directory.  With a regular file occupying "out", the
cleanup step before writing "out/v.mp4" skips `makedirs` and raises
nothing, yet no directory exists at "out" afterwards — refuting the
claimed postcondition that the output directory exists.  And with a
directory occupying the output path itself, the deletion step is not
skipped as a no-op: `os.remove` raises `IsADirectoryError`. -/
theorem output_cleanup_blocked_cex :
    prepareOutput ⟨["out"], []⟩ "out/v.mp4" = (⟨["out"], []⟩, none) ∧
    ¬ dirname "out/v.mp4" ∈ (prepareOutput ⟨["out"], []⟩ "out/v.mp4").1.dirs ∧
    (prepareOutput ⟨[], ["v"]⟩ "v").2 = some .isADirectory :=
  ⟨by decide, by decide, by decide⟩

/-- C9: corrected.  Provided no regular file occupies the output
directory path or one of its ancestors and no directory occupies the
output path, the cleanup step that precedes opening the writer raises
nothing and establishes the claimed postcondition: the output directory
exists when the path names one (created together with its ancestors when
missing) and no file exists at the output path; both steps are no-ops
when already satisfied — an existing directory leaves the directory set
unchanged, and a nonexistent output file leaves the file set unchanged.
Without those premises the postcondition fails: a regular file at the
directory path makes the existence check skip creation, and a directory
at the output path makes `os.remove` raise (see
`output_cleanup_blocked_cex`). -/
theorem output_cleanup_post (fs : FS) (o : String)
    (hdf : ∀ a ∈ ancestorDirs (dirname o), ¬ a ∈ fs.files)
    (hod : ¬ o ∈ fs.dirs) :
    (prepareOutput fs o).2 = none ∧
    (dirname o ≠ "" → dirname o ∈ (prepareOutput fs o).1.dirs) ∧
    ¬ o ∈ (prepareOutput fs o).1.files ∧
    (dirname o ∈ fs.dirs → (prepareOutput fs o).1.dirs = fs.dirs) ∧
    (¬ o ∈ fs.files → (prepareOutput fs o).1.files = fs.files) ∧
    (dirname o ≠ "" → ¬ dirname o ∈ fs.dirs →
      ∀ d ∈ ancestorDirs (dirname o), d ∈ (prepareOutput fs o).1.dirs) := by
  obtain ⟨h2none, hfiles, hdirs⟩ := prepareOutput_clean fs o hdf hod
  refine ⟨h2none, ?_, ?_, ?_, ?_, ?_⟩
  · intro hne
    rw [hdirs]
    by_cases hm : dirname o ∈ fs.dirs
    · rw [if_neg (fun hp => hp.2 hm)]
      exact hm
    · rw [if_pos ⟨hne, hm⟩]
      exact List.mem_append_left _ (dirname_mem_ancestorDirs _)
  · rw [hfiles]
    by_cases h2 : o ∈ fs.files
    · rw [if_pos h2]
      simp [List.mem_filter]
    · rw [if_neg h2]
      exact h2
  · intro hm
    rw [hdirs, if_neg (fun hp => hp.2 hm)]
  · intro h2
    rw [hfiles, if_neg h2]
  · intro hne hnd d hd
    rw [hdirs, if_pos ⟨hne, hnd⟩]
    exact List.mem_append_left _ hd

/-- C9 witness: cleaning up before writing `out/v.mp4` on a filesystem
that holds only a stale file at that path raises nothing, creates the
directory and removes the stale file. -/
theorem output_cleanup_post_witness :
    (prepareOutput ⟨["out/v.mp4"], []⟩ "out/v.mp4").2 = none ∧
    dirname "out/v.mp4" ∈ (prepareOutput ⟨["out/v.mp4"], []⟩ "out/v.mp4").1.dirs ∧
    ¬ "out/v.mp4" ∈ (prepareOutput ⟨["out/v.mp4"], []⟩ "out/v.mp4").1.files :=
  ⟨(output_cleanup_post ⟨["out/v.mp4"], []⟩ "out/v.mp4" (by decide) (by decide)).1,
   (output_cleanup_post ⟨["out/v.mp4"], []⟩ "out/v.mp4" (by decide) (by decide)).2.1
     (by decide),
   (output_cleanup_post ⟨["out/v.mp4"], []⟩ "out/v.mp4" (by decide) (by decide)).2.2.1⟩

lemma load_ok_facts (w : World) (p : String) (fw fh sf : Nat)
    (t : Image × Nat × Nat)
    (h : load_and_resize_logo w p fw fh sf = .ok t) :
    w.pathExists p = true ∧ w.decodeImage p ≠ none := by
  rw [load_and_resize_logo] at h
  by_cases hex : w.pathExists p = true
  · refine ⟨hex, ?_⟩
    cases hdec : w.decodeImage p with
    | none => rw [if_pos hex, hdec] at h; cases h
    | some logo => simp [hdec]
  · rw [if_neg hex] at h
    cases h

/-- C10: confirmed.  Whenever `overlay_logos` fails before both logos have
loaded (missing background, unopenable video, missing logo, undecodable
logo), the filesystem is returned unchanged: no pre-existing output file
is deleted and no directory is created, because all mutations are
sequenced after both logo loads. -/
theorem early_failure_fs_unchanged (w : World) (fs : FS) (b l r o : String)
    (sf : Nat)
    (h : w.pathExists b = false ∨ w.videoOpens b = false ∨
      w.pathExists l = false ∨ w.decodeImage l = none ∨
      w.pathExists r = false ∨ w.decodeImage r = none) :
    (overlay_logos w fs b l r o sf).1 = fs ∧
    (errOf (overlay_logos w fs b l r o sf).2).isSome = true := by
  rw [overlay_logos]
  by_cases hb : w.pathExists b = true
  case neg =>
    rw [if_neg hb]
    exact ⟨rfl, rfl⟩
  case pos =>
    rw [if_pos hb]
    by_cases ho : w.videoOpens b = true
    case neg =>
      rw [if_neg ho]
      exact ⟨rfl, rfl⟩
    case pos =>
      rw [if_pos ho]
      cases hL : load_and_resize_logo w l (w.probe b).1 (w.probe b).2 sf with
      | error e => exact ⟨rfl, rfl⟩
      | ok t =>
        obtain ⟨logo1, d1w, d1h⟩ := t
        cases hR : load_and_resize_logo w r (w.probe b).1 (w.probe b).2 sf with
        | error e => exact ⟨rfl, rfl⟩
        | ok t2 =>
          obtain ⟨logo2, d2w, d2h⟩ := t2
          obtain ⟨hl1, hl2⟩ := load_ok_facts _ _ _ _ _ _ hL
          obtain ⟨hr1, hr2⟩ := load_ok_facts _ _ _ _ _ _ hR
          rcases h with h | h | h | h | h | h
          · rw [hb] at h; cases h
          · rw [ho] at h; cases h
          · rw [hl1] at h; cases h
          · exact absurd h hl2
          · rw [hr1] at h; cases h
          · exact absurd h hr2

/-- C10 witness: a run against a world with no paths at all returns the
filesystem (holding a stale output file) untouched and an error. -/
theorem early_failure_fs_unchanged_witness :
    (overlay_logos absentWorld ⟨["stale.mp4"], ["out"]⟩ "bg.mp4" "l.png" "r.png"
        "out/stale.mp4" 4).1 = (⟨["stale.mp4"], ["out"]⟩ : FS) ∧
    (errOf (overlay_logos absentWorld ⟨["stale.mp4"], ["out"]⟩ "bg.mp4" "l.png"
        "r.png" "out/stale.mp4" 4).2).isSome = true :=
  early_failure_fs_unchanged absentWorld ⟨["stale.mp4"], ["out"]⟩ "bg.mp4" "l.png"
    "r.png" "out/stale.mp4" 4 (Or.inl rfl)

end OverlayLogos
